import Mathlib

/-!
# HTTP output plugin of mjpg-streamer: servers table, lifecycle and command bridge

Shallow embedding of `plugins/output_http/output_http.c`.

* The global array `context servers[MAX_OUTPUT_PLUGINS]` is a list of `context`
  records; its length is the capacity `MAX_OUTPUT_PLUGINS` (a constant of
  `mjpg_streamer.h`, taken as a parameter).
* C `int` values are `Int`, `unsigned int` values are `Nat`, a C string is the
  list of its characters before the terminating NUL, a pointer to a string is
  an `Option` (`none` is `NULL`).
* Calls that leave the program (`write`, `open`, `getopt_long_only`,
  `pthread_create`, `atoi`, `htons`) are not computed: the value each call
  returns is an argument of the embedded function, and the calls that act on
  the outside are recorded in a log inside `World`.
* A function returns `none` exactly where the C code reads or writes outside
  an array (undefined behaviour); `none` is not a value the C code returns.
-/

namespace OutputHttp

set_option linter.unusedVariables false

/-- A C string: the characters before the terminating NUL. -/
abbrev CStr := List Char

/-- The `config` record of `httpd.h`, with the fields `output_http.c` uses. -/
structure config where
  port : Int
  hostname : Option CStr
  credentials : Option CStr
  www_folder : Option CStr
  nocommands : Int
  fd : Int
  aflag : Int
  cflag : Int
deriving DecidableEq, Repr

/-- The `context` record of `httpd.h`, with the fields `output_http.c` uses.
`pglobal` and `threadID` are opaque handles. -/
structure context where
  id : Int
  pglobal : Nat
  threadID : Nat
  conf : config
deriving DecidableEq, Repr

/-- One call `write(fd, buf, count)`: `buf` lists the `count` bytes handed to
the call, `ret` is the value the call returned. -/
structure write_call where
  fd : Int
  buf : List Int
  ret : Int
deriving DecidableEq, Repr

/-- Calls into the thread library, in the order they were made. -/
inductive thread_call where
  | create (slot : Int) (handle : Nat)
  | detach (handle : Nat)
  | cancel (handle : Nat)
deriving DecidableEq, Repr

/-- Program state seen by the plugin interface functions: the `servers` table,
the names stored through `param->global->out[id].name`, and the logs of the
`write` and thread-library calls made so far (oldest first). -/
structure World where
  servers : List context
  out_name : List (Int × CStr)
  writes : List write_call
  threads : List thread_call
deriving DecidableEq, Repr

/-- A slot of the table as static storage leaves it: every field zero. -/
def zero_context : context :=
  { id := 0, pglobal := 0, threadID := 0,
    conf := { port := 0, hostname := none, credentials := none, www_folder := none,
              nocommands := 0, fd := 0, aflag := 0, cflag := 0 } }

/-- The state at program start for a table of `cap` slots
(`context servers[MAX_OUTPUT_PLUGINS];` at file scope). -/
def World.start (cap : Nat) : World :=
  { servers := List.replicate cap zero_context, out_name := [], writes := [], threads := [] }

/-- Reading `servers[id]`; `none` when `id` lies outside the array. -/
def World.server (s : World) (id : Int) : Option context :=
  if 0 ≤ id then s.servers[id.toNat]? else none

/-- Storing `c` at `servers[id]`. -/
def World.set_server (s : World) (id : Int) (c : context) : World :=
  { s with servers := s.servers.set id.toNat c }

/-- C logical negation `!x`. -/
def lnot (x : Int) : Int := if x = 0 then 1 else 0

def OUTPUT_PLUGIN_NAME : CStr := "HTTP output plugin".toList

def OUT_CMD_GENERIC : Nat := 1001

def TOGGLE_AUTO : Char := 'z'
def TOGGLE_END : Char := 'y'
def TOGGLE_CONTINUE : Char := 'x'
def FORWARD : Char := 'f'
def LEFT : Char := 'l'
def STAND : Char := 's'
def RIGHT : Char := 'r'
def BACKWARD : Char := 'b'
def GO : Char := 'g'
def RIGHT_FRONT : Char := 'c'
def RIGHT_BACK : Char := 'e'
def LEFT_FRONT : Char := 'd'
def LEFT_BACK : Char := 'h'

/-- The value of a character constant as a C `char`. -/
def code (c : Char) : Int := Int.ofNat c.toNat

/-! ## output_init -/

/-- What one call of `getopt_long_only` reports: `unrecognized` is the return
value `'?'`; `option i arg` is a matched entry `long_options[i]` with `optarg`
equal to `arg` (empty for an entry declared `no_argument`). The end of the
list of results is the return value `-1`. -/
inductive getopt_result where
  | unrecognized
  | option (option_index : Nat) (optarg : CStr)
deriving DecidableEq, Repr

/-- The library functions `output_init` calls, as the values they return. -/
structure Libc where
  atoi : CStr → Int
  htons : Int → Int
  open_fifo : CStr → Int

/-- The fields of `output_parameter` the function reads. -/
structure output_parameter where
  id : Int
  global : Nat
deriving DecidableEq, Repr

/-- The local variables of `output_init` that the option loop assigns. -/
structure init_locals where
  port : Int
  credentials : Option CStr
  www_folder : Option CStr
  hostname : Option CStr
  named_pipe : Option CStr
  nocommands : Int
deriving DecidableEq, Repr

/-- How the option loop of `output_init` ends. -/
inductive parse_outcome where
  | help
  | parsed (l : init_locals)
  | undefined
deriving DecidableEq, Repr

/-- Body of `case 8: case 9:` (w, www): copy `optarg`, and append "/" when the
last character of `optarg` is not '/'. With an empty `optarg` the test reads
`optarg[-1]`, outside the string: `none`. -/
def www_folder_of (optarg : CStr) : Option CStr :=
  match optarg.getLast? with
  | none => none
  | some last => if last ≠ '/' then some (optarg ++ ['/']) else some optarg

/-- The `while (1)` loop of `output_init` over the successive results of
`getopt_long_only`. -/
def parse_options (lc : Libc) (l : init_locals) : List getopt_result → parse_outcome
  | [] => parse_outcome.parsed l
  | getopt_result.unrecognized :: _ => parse_outcome.help
  | getopt_result.option i optarg :: rest =>
    if i = 0 ∨ i = 1 then parse_outcome.help
    else if i = 2 ∨ i = 3 then
      parse_options lc { l with port := lc.htons (lc.atoi optarg) } rest
    else if i = 4 ∨ i = 5 then
      parse_options lc { l with hostname := some optarg } rest
    else if i = 6 ∨ i = 7 then
      parse_options lc { l with credentials := some optarg } rest
    else if i = 8 ∨ i = 9 then
      match www_folder_of optarg with
      | none => parse_outcome.undefined
      | some w => parse_options lc { l with www_folder := some w } rest
    else if i = 10 ∨ i = 11 then
      parse_options lc { l with nocommands := 1 } rest
    else if i = 12 ∨ i = 13 then
      parse_options lc { l with named_pipe := some optarg } rest
    else parse_options lc l rest

/-- The locals of `output_init` before the loop. -/
def init_defaults (lc : Libc) : init_locals :=
  { port := lc.htons 8080, credentials := none, www_folder := none, hostname := none,
    named_pipe := none, nocommands := 0 }

/-- `int output_init(output_parameter *param, int id)`; `opts` are the results
of the successive `getopt_long_only` calls on `param->argc`, `param->argv`.
The result is the new state and the return value. -/
def output_init (lc : Libc) (opts : List getopt_result) (s : World)
    (param : output_parameter) (id : Int) : Option (World × Int) :=
  match parse_options lc (init_defaults lc) opts with
  | parse_outcome.undefined => none
  | parse_outcome.help => some (s, 1)
  | parse_outcome.parsed l =>
    match s.server param.id with
    | none => none
    | some c =>
      let c1 : context :=
        { c with
          id := param.id
          pglobal := param.global
          conf := { port := l.port, hostname := l.hostname, credentials := l.credentials,
                    www_folder := l.www_folder, nocommands := l.nocommands,
                    fd := -1, aflag := 0, cflag := 0 } }
      let c2 : context :=
        match l.named_pipe with
        | none => c1
        | some path => { c1 with conf := { c1.conf with fd := lc.open_fifo path } }
      let s1 := s.set_server param.id c2
      some ({ s1 with out_name := s1.out_name ++ [(id, OUTPUT_PLUGIN_NAME)] }, 0)

/-! ## output_stop, output_run -/

/-- `int output_stop(int id)`: `pthread_cancel(servers[id].threadID)`. -/
def output_stop (s : World) (id : Int) : Option (World × Int) :=
  match s.server id with
  | none => none
  | some c => some ({ s with threads := s.threads ++ [thread_call.cancel c.threadID] }, 0)

/-- `int output_run(int id)`: `pthread_create` stores the handle `tid` of the
new thread in `servers[id].threadID`, then `pthread_detach` is called on it.
The new thread runs `server_thread` (httpd.c) on `&servers[id]`; what that
thread does later is not an effect of this function and is not modelled. -/
def output_run (tid : Nat) (s : World) (id : Int) : Option (World × Int) :=
  match s.server id with
  | none => none
  | some c =>
    let s1 := s.set_server id { c with threadID := tid }
    some ({ s1 with threads := s1.threads ++ [thread_call.create id tid, thread_call.detach tid] }, 0)

/-! ## output_cmd -/

/-- The inner `switch (cmd)` of `output_cmd` for an instance whose context is
`c`: the new value of `ch`, the state and `rc`. -/
def cmd_switch (s : World) (id : Int) (c : context) (cmd : Nat) : Int × World × Int :=
  match cmd with
  | 1 => (code BACKWARD, s, 0)
  | 2 => (code FORWARD, s, 0)
  | 3 => (code STAND, s, 0)
  | 4 => (code LEFT, s, 0)
  | 5 => (code RIGHT, s, 0)
  | 6 =>
    let c1 : context := { c with conf := { c.conf with aflag := lnot c.conf.aflag } }
    (code TOGGLE_AUTO, s.set_server id c1, c1.conf.aflag)
  | 7 =>
    let c1 : context := { c with conf := { c.conf with cflag := lnot c.conf.cflag } }
    (code TOGGLE_CONTINUE, s.set_server id c1, c1.conf.cflag)
  | _ => (0, s, 0)

/-- `int output_cmd(int id, unsigned int cmd, unsigned int group, int value)`;
`wr` is the value `write` returns if the function calls it. The result is the
new state and the return value. -/
def output_cmd (wr : Int) (s : World) (id : Int) (cmd group : Nat) (value : Int) :
    Option (World × Int) :=
  match s.server id with
  | none => none
  | some c =>
    if c.conf.fd < 0 then some (s, -1)
    else if group = OUT_CMD_GENERIC then
      match cmd_switch s id c cmd with
      | (ch, s1, rc) =>
        if ch > 0 then
          some ({ s1 with writes := s1.writes ++ [{ fd := c.conf.fd, buf := [ch], ret := wr }] }, rc)
        else some (s1, rc)
    else some (s, 0)

/-- Consecutive calls `output_cmd(id, cmd, group, value)`, one per element of
`wrs` (the values the successive `write` calls return): the final state and
the list of return values, in call order. -/
def output_cmd_seq (s : World) (id : Int) (cmd group : Nat) (value : Int) :
    List Int → Option (World × List Int)
  | [] => some (s, [])
  | wr :: wrs =>
    match output_cmd wr s id cmd group value with
    | none => none
    | some (s1, rc) =>
      match output_cmd_seq s1 id cmd group value wrs with
      | none => none
      | some (s2, rcs) => some (s2, rc :: rcs)

/-! ## Sequences of calls of the plugin interface -/

/-- One call of a plugin interface function, together with the values the
library calls made inside it return. -/
inductive plugin_call where
  | call_init (lc : Libc) (opts : List getopt_result) (param : output_parameter) (id : Int)
  | call_run (tid : Nat) (id : Int)
  | call_stop (id : Int)
  | call_cmd (wr : Int) (id : Int) (cmd group : Nat) (value : Int)

/-- The call made in state `s`: the new state and the return value. -/
def plugin_call.apply (s : World) : plugin_call → Option (World × Int)
  | plugin_call.call_init lc opts param id => output_init lc opts s param id
  | plugin_call.call_run tid id => output_run tid s id
  | plugin_call.call_stop id => output_stop s id
  | plugin_call.call_cmd wr id cmd group value => output_cmd wr s id cmd group value

/-- The state after the calls `ks`, made one after the other from `s`. -/
def run_calls (s : World) : List plugin_call → Option World
  | [] => some s
  | k :: ks =>
    match k.apply s with
    | none => none
    | some (s1, _) => run_calls s1 ks

/-- Whether the call is `output_init` for the slot `id`, that is, with
`param->id` equal to `id`. -/
def plugin_call.inits (id : Int) : plugin_call → Bool
  | plugin_call.call_init _ _ param _ => decide (param.id = id)
  | _ => false

/-! ## Predicates and reference functions used in the statements -/

/-- What `output_cmd` may change in the context of the addressed instance:
`c1` agrees with `c` on every field other than the two flags; aflag may differ
only under `pa`, cflag only under `pc`. -/
def frame_of (pa pc : Prop) (c c1 : context) : Prop :=
  (c1.conf.aflag ≠ c.conf.aflag → pa) ∧ (c1.conf.cflag ≠ c.conf.cflag → pc) ∧
    c1.id = c.id ∧ c1.pglobal = c.pglobal ∧ c1.threadID = c.threadID ∧
    c1.conf.port = c.conf.port ∧ c1.conf.hostname = c.conf.hostname ∧
    c1.conf.credentials = c.conf.credentials ∧ c1.conf.www_folder = c.conf.www_folder ∧
    c1.conf.nocommands = c.conf.nocommands ∧ c1.conf.fd = c.conf.fd

/-- The results of `n` consecutive toggles of a flag whose value is `b`. -/
def toggle_results (b : Int) : Nat → List Int
  | 0 => []
  | n + 1 => lnot b :: toggle_results (lnot b) n

/-- Content root as the specification words it: the argument with all of its
trailing '/' characters replaced by a single '/'. Not taken from the source;
used only to compare with what `output_init` stores. -/
def one_trailing_slash (a : CStr) : CStr :=
  (a.reverse.dropWhile (fun ch => ch = '/')).reverse ++ ['/']

/-! ## Concrete inputs used below -/

/-- Library results for the examples: `open` of the fifo "p" yields descriptor
5, any other path fails with -1. -/
def lc0 : Libc :=
  { atoi := fun _ => 0, htons := fun x => x,
    open_fifo := fun p => if p = ['p'] then 5 else -1 }

def param0 : output_parameter := { id := 0, global := 1 }

/-- The context `output_init` stores for `param0` when the channel descriptor
ends up as `fd` and no other option is given. -/
def ctx0 (fd : Int) : context :=
  { id := 0, pglobal := 1, threadID := 0,
    conf := { port := 8080, hostname := none, credentials := none, www_folder := none,
              nocommands := 0, fd := fd, aflag := 0, cflag := 0 } }

/-- A table of 4 slots in which instance 0 has been set up with channel
descriptor `fd` and the other slots are untouched. -/
def world0 (fd : Int) : World :=
  { servers := [ctx0 fd, zero_context, zero_context, zero_context],
    out_name := [(0, OUTPUT_PLUGIN_NAME)], writes := [], threads := [] }

/-- The option list `-i p`. -/
def opts_pipe : List getopt_result := [getopt_result.option 12 ['p']]

/-- Two calls from program start: `output_init` for instance 0 with `-i p`,
then `output_cmd(2, 6, 1001, 0)` on slot 2, for which `output_init` never ran. -/
def calls0 : List plugin_call :=
  [plugin_call.call_init lc0 opts_pipe param0 0, plugin_call.call_cmd 1 2 6 1001 0]

/-- The state the calls `calls0` leave in a table of 4 slots. -/
def world1 : World :=
  { servers := [ctx0 5, zero_context,
      { zero_context with conf := { zero_context.conf with aflag := 1 } }, zero_context],
    out_name := [(0, OUTPUT_PLUGIN_NAME)],
    writes := [{ fd := 0, buf := [code 'z'], ret := 1 }], threads := [] }

/-! ## Lemmas on the table -/

theorem server_eq_some {s : World} {id : Int} {c : context} (h : s.server id = some c) :
    0 ≤ id ∧ s.servers[id.toNat]? = some c := by
  unfold World.server at h
  by_cases h0 : 0 ≤ id
  · rw [if_pos h0] at h
    exact ⟨h0, h⟩
  · rw [if_neg h0] at h
    cases h

theorem server_set_same {s : World} {id : Int} {c : context} (h : s.server id = some c)
    (c1 : context) : (s.set_server id c1).server id = some c1 := by
  obtain ⟨h0, hget⟩ := server_eq_some h
  have hlt : id.toNat < s.servers.length := by
    rcases List.getElem?_eq_some_iff.mp hget with ⟨hl, _⟩
    exact hl
  unfold World.server World.set_server
  simp [h0, hlt]

theorem server_set_other {s : World} {id : Int} (h0 : 0 ≤ id) (c1 : context) (j : Int)
    (hj : j ≠ id) : (s.set_server id c1).server j = s.server j := by
  unfold World.server World.set_server
  by_cases hj0 : 0 ≤ j
  · have hne : id.toNat ≠ j.toNat := by omega
    simp [hj0, List.getElem?_set_ne hne]
  · simp [hj0]

theorem code_pos :
    0 < code 'b' ∧ 0 < code 'f' ∧ 0 < code 's' ∧ 0 < code 'l' ∧ 0 < code 'r' ∧
      0 < code 'z' ∧ 0 < code 'x' := by
  decide

theorem output_init_world0_pipe :
    output_init lc0 opts_pipe (World.start 4) param0 0 = some (world0 5, 0) := by
  decide

theorem output_init_world0_nopipe :
    output_init lc0 [] (World.start 4) param0 0 = some (world0 (-1), 0) := by
  decide

/-! ## output_cmd -/

/-- Beyond 7 the inner switch takes its default branch. -/
theorem cmd_switch_default (s : World) (id : Int) (c : context) (cmd : Nat)
    (h : cmd < 1 ∨ 7 < cmd) : cmd_switch s id c cmd = (0, s, 0) := by
  rcases cmd with _ | _ | _ | _ | _ | _ | _ | _ | n
  all_goals first
    | rfl
    | (exfalso; omega)

/-- With an available channel and the generic group, `output_cmd` is the inner
switch followed by the conditional write. -/
theorem output_cmd_generic (wr : Int) (s : World) (id : Int) (c : context) (cmd : Nat)
    (value : Int) (hc : s.server id = some c) (hfd : 0 ≤ c.conf.fd) :
    output_cmd wr s id cmd 1001 value =
      if (cmd_switch s id c cmd).1 > 0 then
        some ({ (cmd_switch s id c cmd).2.1 with
                writes := (cmd_switch s id c cmd).2.1.writes ++
                  [{ fd := c.conf.fd, buf := [(cmd_switch s id c cmd).1], ret := wr }] },
              (cmd_switch s id c cmd).2.2)
      else some ((cmd_switch s id c cmd).2.1, (cmd_switch s id c cmd).2.2) := by
  have hnlt : ¬ c.conf.fd < 0 := not_lt.mpr hfd
  simp [output_cmd, hc, hnlt, OUT_CMD_GENERIC]

/-- The commands 1..5: one write of the symbol, result 0. -/
theorem output_cmd_move (wr : Int) (s : World) (id : Int) (c : context) (cmd : Nat)
    (value : Int) (sym : Char) (hc : s.server id = some c) (hfd : 0 ≤ c.conf.fd)
    (h : (cmd = 1 ∧ sym = 'b') ∨ (cmd = 2 ∧ sym = 'f') ∨ (cmd = 3 ∧ sym = 's') ∨
      (cmd = 4 ∧ sym = 'l') ∨ (cmd = 5 ∧ sym = 'r')) :
    output_cmd wr s id cmd 1001 value =
      some ({ s with writes := s.writes ++ [{ fd := c.conf.fd, buf := [code sym], ret := wr }] },
            0) := by
  have hpos := code_pos
  rw [output_cmd_generic wr s id c cmd value hc hfd]
  rcases h with ⟨h1, h2⟩ | ⟨h1, h2⟩ | ⟨h1, h2⟩ | ⟨h1, h2⟩ | ⟨h1, h2⟩
  · subst h1; subst h2
    simp [cmd_switch, hpos.1, BACKWARD]
  · subst h1; subst h2
    simp [cmd_switch, hpos.2.1, FORWARD]
  · subst h1; subst h2
    simp [cmd_switch, hpos.2.2.1, STAND]
  · subst h1; subst h2
    simp [cmd_switch, hpos.2.2.2.1, LEFT]
  · subst h1; subst h2
    simp [cmd_switch, hpos.2.2.2.2.1, RIGHT]

/-- Command 6: aflag negated, one write of 'z', result the new flag. -/
theorem output_cmd_auto (wr : Int) (s : World) (id : Int) (c : context) (value : Int)
    (hc : s.server id = some c) (hfd : 0 ≤ c.conf.fd) :
    output_cmd wr s id 6 1001 value =
      some ({ s with
              servers := s.servers.set id.toNat
                { c with conf := { c.conf with aflag := lnot c.conf.aflag } }
              writes := s.writes ++ [{ fd := c.conf.fd, buf := [code 'z'], ret := wr }] },
            lnot c.conf.aflag) := by
  have hpos := code_pos
  rw [output_cmd_generic wr s id c 6 value hc hfd]
  simp [cmd_switch, hpos.2.2.2.2.2.1, World.set_server, TOGGLE_AUTO]

/-- Command 7: cflag negated, one write of 'x', result the new flag. -/
theorem output_cmd_continue (wr : Int) (s : World) (id : Int) (c : context) (value : Int)
    (hc : s.server id = some c) (hfd : 0 ≤ c.conf.fd) :
    output_cmd wr s id 7 1001 value =
      some ({ s with
              servers := s.servers.set id.toNat
                { c with conf := { c.conf with cflag := lnot c.conf.cflag } }
              writes := s.writes ++ [{ fd := c.conf.fd, buf := [code 'x'], ret := wr }] },
            lnot c.conf.cflag) := by
  have hpos := code_pos
  rw [output_cmd_generic wr s id c 7 value hc hfd]
  simp [cmd_switch, hpos.2.2.2.2.2.2, World.set_server, TOGGLE_CONTINUE]

/-- Commands outside 1..7: nothing happens, result 0. -/
theorem output_cmd_other (wr : Int) (s : World) (id : Int) (c : context) (cmd : Nat)
    (value : Int) (hc : s.server id = some c) (hfd : 0 ≤ c.conf.fd)
    (h : cmd < 1 ∨ 7 < cmd) : output_cmd wr s id cmd 1001 value = some (s, 0) := by
  rw [output_cmd_generic wr s id c cmd value hc hfd, cmd_switch_default s id c cmd h]
  simp

/-- A group other than 1001: nothing happens, result 0. -/
theorem unknown_group_noop (wr : Int) (s : World) (id : Int) (c : context)
    (cmd group : Nat) (value : Int) (hc : s.server id = some c) (hfd : 0 ≤ c.conf.fd)
    (hg : group ≠ 1001) : output_cmd wr s id cmd group value = some (s, 0) := by
  have hnlt : ¬ c.conf.fd < 0 := not_lt.mpr hfd
  simp [output_cmd, hc, hnlt, OUT_CMD_GENERIC, hg]

theorem lnot_zero_or_one (x : Int) : lnot x = 0 ∨ lnot x = 1 := by
  unfold lnot
  split <;> simp

/-- C1. With an available channel (`conf.fd >= 0`), `output_cmd(id, 6, 1001, value)`
replaces the aflag of instance `id` by its negation, appends exactly one
one-byte write of 'z' on the fd of the instance and returns the new flag
(1 if the flag was 0, else 0); `output_cmd(id, 7, 1001, value)` does the same
with cflag and 'x'. This holds whatever the write returns. -/
theorem output_cmd_toggle (wr : Int) (s : World) (id : Int) (c : context) (value : Int)
    (hc : s.server id = some c) (hfd : 0 ≤ c.conf.fd) :
    output_cmd wr s id 6 1001 value =
        some ({ s with
                servers := s.servers.set id.toNat
                  { c with conf := { c.conf with aflag := lnot c.conf.aflag } }
                writes := s.writes ++ [{ fd := c.conf.fd, buf := [code 'z'], ret := wr }] },
              if c.conf.aflag = 0 then 1 else 0) ∧
      output_cmd wr s id 7 1001 value =
        some ({ s with
                servers := s.servers.set id.toNat
                  { c with conf := { c.conf with cflag := lnot c.conf.cflag } }
                writes := s.writes ++ [{ fd := c.conf.fd, buf := [code 'x'], ret := wr }] },
              if c.conf.cflag = 0 then 1 else 0) := by
  constructor
  · rw [output_cmd_auto wr s id c value hc hfd]
    rfl
  · rw [output_cmd_continue wr s id c value hc hfd]
    rfl

theorem output_cmd_toggle_witness :
    (output_cmd (-1) (world0 5) 0 6 1001 0 =
        some ({ world0 5 with
                servers := (world0 5).servers.set (0 : Int).toNat
                  { ctx0 5 with conf := { (ctx0 5).conf with aflag := lnot (ctx0 5).conf.aflag } }
                writes := (world0 5).writes ++ [{ fd := (ctx0 5).conf.fd, buf := [code 'z'], ret := -1 }] },
              if (ctx0 5).conf.aflag = 0 then 1 else 0) ∧
      output_cmd (-1) (world0 5) 0 7 1001 0 =
        some ({ world0 5 with
                servers := (world0 5).servers.set (0 : Int).toNat
                  { ctx0 5 with conf := { (ctx0 5).conf with cflag := lnot (ctx0 5).conf.cflag } }
                writes := (world0 5).writes ++ [{ fd := (ctx0 5).conf.fd, buf := [code 'x'], ret := -1 }] },
              if (ctx0 5).conf.cflag = 0 then 1 else 0)) :=
  output_cmd_toggle (-1) (world0 5) 0 (ctx0 5) 0 (by decide) (by decide)

/-- C2. When the channel of instance `id` is unavailable (`conf.fd < 0`),
`output_cmd(id, cmd, group, value)` returns -1 for every cmd, group and value
and leaves the whole state as it was: no write is made, no flag or other field
changes. -/
theorem output_cmd_unavailable (wr : Int) (s : World) (id : Int) (c : context)
    (cmd group : Nat) (value : Int) (hc : s.server id = some c) (hfd : c.conf.fd < 0) :
    output_cmd wr s id cmd group value = some (s, -1) := by
  simp [output_cmd, hc, hfd]

theorem output_cmd_unavailable_witness :
    output_init lc0 [] (World.start 4) param0 0 = some (world0 (-1), 0) ∧
      output_cmd 1 (world0 (-1)) 0 2 1001 0 = some (world0 (-1), -1) :=
  ⟨by decide,
   output_cmd_unavailable 1 (world0 (-1)) 0 (ctx0 (-1)) 2 1001 0 (by decide) (by decide)⟩

/-- C3. With an available channel, `output_cmd(id, cmd, 1001, value)` follows
the table 1 -> 'b', 2 -> 'f', 3 -> 's', 4 -> 'l', 5 -> 'r': for these commands
it appends exactly one one-byte write of the symbol on the fd of the instance,
changes nothing else and returns 0; for every cmd below 1 or above 7 it leaves
the state as it was (no write) and returns 0. -/
theorem output_cmd_table (wr : Int) (s : World) (id : Int) (c : context) (cmd : Nat)
    (value : Int) (hc : s.server id = some c) (hfd : 0 ≤ c.conf.fd) :
    (∀ sym : Char,
        (cmd = 1 ∧ sym = 'b') ∨ (cmd = 2 ∧ sym = 'f') ∨ (cmd = 3 ∧ sym = 's') ∨
          (cmd = 4 ∧ sym = 'l') ∨ (cmd = 5 ∧ sym = 'r') →
        output_cmd wr s id cmd 1001 value =
          some ({ s with writes := s.writes ++ [{ fd := c.conf.fd, buf := [code sym], ret := wr }] },
                0)) ∧
      (cmd < 1 ∨ 7 < cmd → output_cmd wr s id cmd 1001 value = some (s, 0)) := by
  exact ⟨fun sym h => output_cmd_move wr s id c cmd value sym hc hfd h,
    fun h => output_cmd_other wr s id c cmd value hc hfd h⟩

theorem output_cmd_table_witness :
    (∀ sym : Char,
        ((2 : Nat) = 1 ∧ sym = 'b') ∨ ((2 : Nat) = 2 ∧ sym = 'f') ∨ ((2 : Nat) = 3 ∧ sym = 's') ∨
          ((2 : Nat) = 4 ∧ sym = 'l') ∨ ((2 : Nat) = 5 ∧ sym = 'r') →
        output_cmd 1 (world0 5) 0 2 1001 0 =
          some ({ world0 5 with
                  writes := (world0 5).writes ++
                    [{ fd := (ctx0 5).conf.fd, buf := [code sym], ret := 1 }] }, 0)) ∧
      ((2 : Nat) < 1 ∨ 7 < (2 : Nat) → output_cmd 1 (world0 5) 0 2 1001 0 = some (world0 5, 0)) :=
  output_cmd_table 1 (world0 5) 0 (ctx0 5) 2 0 (by decide) (by decide)

/-- C5, counterexample. Instance 0 set up by `output_init` without a pipe
option is registered, yet `output_cmd(0, 1, 1000, 0)` with the unknown group
1000 returns -1, not 0. -/
theorem unknown_group_error_without_channel :
    output_init lc0 [] (World.start 4) param0 0 = some (world0 (-1), 0) ∧
      output_cmd 1 (world0 (-1)) 0 1 1000 0 = some (world0 (-1), -1) := by
  decide

/-- C5, amended. For an instance whose channel is available (`conf.fd >= 0`),
every cmd, every value and every group other than 1001,
`output_cmd(id, cmd, group, value)` returns 0 and leaves the whole state as it
was: no write, no flag change. -/
theorem output_cmd_unknown_group (wr : Int) (s : World) (id : Int) (c : context)
    (cmd group : Nat) (value : Int) (hc : s.server id = some c) (hfd : 0 ≤ c.conf.fd)
    (hg : group ≠ 1001) : output_cmd wr s id cmd group value = some (s, 0) :=
  unknown_group_noop wr s id c cmd group value hc hfd hg

theorem output_cmd_unknown_group_witness :
    output_cmd 1 (world0 5) 0 6 1000 0 = some (world0 5, 0) :=
  output_cmd_unknown_group 1 (world0 5) 0 (ctx0 5) 6 1000 0 (by decide) (by decide) (by decide)

/-- C6. Failing input: instance 0 has its channel open on descriptor 5 and the
write made by `output_cmd(0, 2, 1001, 0)` fails with -1. `output_cmd` makes the
write and returns 0, the very value it returns when the write succeeds, so the
caller cannot tell the failure from success. -/
theorem write_failure_returns_success :
    output_init lc0 opts_pipe (World.start 4) param0 0 = some (world0 5, 0) ∧
      output_cmd (-1) (world0 5) 0 2 1001 0 =
        some ({ world0 5 with writes := [{ fd := 5, buf := [code 'f'], ret := -1 }] }, 0) ∧
      output_cmd 1 (world0 5) 0 2 1001 0 =
        some ({ world0 5 with writes := [{ fd := 5, buf := [code 'f'], ret := 1 }] }, 0) := by
  decide

/-- C7, counterexample. In a table of 4 slots on which `output_init` never
ran, slot 0 is all zero, so its `conf.fd` is 0: `output_cmd(0, 6, 1001, 0)`
returns 1, writes 'z' on descriptor 0 and sets the aflag of the slot. -/
theorem unregistered_slot_is_dispatched :
    (World.start 4).server 0 = some zero_context ∧
      output_cmd 1 (World.start 4) 0 6 1001 0 =
        some ({ World.start 4 with
                servers := [{ zero_context with conf := { zero_context.conf with aflag := 1 } },
                  zero_context, zero_context, zero_context]
                writes := [{ fd := 0, buf := [code 'z'], ret := 1 }] }, 1) := by
  decide

theorem frame_of_same (pa pc : Prop) (c : context) : frame_of pa pc c c :=
  ⟨fun h => absurd rfl h, fun h => absurd rfl h, rfl, rfl, rfl, rfl, rfl, rfl, rfl, rfl, rfl⟩

/-- C8. For every state and every call `output_cmd(id, cmd, group, value)` with
`id` inside the table, the call returns, and afterwards: the aflag of instance
`id` differs only if group = 1001 and cmd = 6, its cflag differs only if
group = 1001 and cmd = 7, every other field of the instance (id, pglobal,
thread handle, port, hostname, credentials, www_folder, nocommands, fd) is as
before, and every other slot of the table is as before. -/
theorem output_cmd_frame (wr : Int) (s : World) (id : Int) (c : context) (cmd group : Nat)
    (value : Int) (hc : s.server id = some c) :
    ∃ s1 rc c1, output_cmd wr s id cmd group value = some (s1, rc) ∧
      s1.server id = some c1 ∧
      frame_of (group = 1001 ∧ cmd = 6) (group = 1001 ∧ cmd = 7) c c1 ∧
      (∀ j : Int, j ≠ id → s1.server j = s.server j) ∧
      s1.servers.length = s.servers.length := by
  have hsame : ∀ rc : Int, output_cmd wr s id cmd group value = some (s, rc) →
      ∃ s1 rc c1, output_cmd wr s id cmd group value = some (s1, rc) ∧
        s1.server id = some c1 ∧
        frame_of (group = 1001 ∧ cmd = 6) (group = 1001 ∧ cmd = 7) c c1 ∧
        (∀ j : Int, j ≠ id → s1.server j = s.server j) ∧
        s1.servers.length = s.servers.length :=
    fun rc h => ⟨s, rc, c, h, hc, frame_of_same _ _ c, fun _ _ => rfl, rfl⟩
  have h0 : 0 ≤ id := (server_eq_some hc).1
  by_cases hfd : c.conf.fd < 0
  · exact hsame (-1) (by simp [output_cmd, hc, hfd])
  have hfd0 : 0 ≤ c.conf.fd := not_lt.mp hfd
  by_cases hg : group = 1001
  · subst hg
    have hmove : ∀ sym : Char,
        (cmd = 1 ∧ sym = 'b') ∨ (cmd = 2 ∧ sym = 'f') ∨ (cmd = 3 ∧ sym = 's') ∨
          (cmd = 4 ∧ sym = 'l') ∨ (cmd = 5 ∧ sym = 'r') →
        ∃ s1 rc c1, output_cmd wr s id cmd 1001 value = some (s1, rc) ∧
          s1.server id = some c1 ∧
          frame_of ((1001 : Nat) = 1001 ∧ cmd = 6) ((1001 : Nat) = 1001 ∧ cmd = 7) c c1 ∧
          (∀ j : Int, j ≠ id → s1.server j = s.server j) ∧
          s1.servers.length = s.servers.length :=
      fun sym h => ⟨_, 0, c, output_cmd_move wr s id c cmd value sym hc hfd0 h, hc,
        frame_of_same _ _ c, fun _ _ => rfl, rfl⟩
    by_cases hout : cmd < 1 ∨ 7 < cmd
    · exact hsame 0 (output_cmd_other wr s id c cmd value hc hfd0 hout)
    · have hcases : cmd = 1 ∨ cmd = 2 ∨ cmd = 3 ∨ cmd = 4 ∨ cmd = 5 ∨ cmd = 6 ∨ cmd = 7 := by
        omega
      rcases hcases with h | h | h | h | h | h | h
      · exact hmove 'b' (Or.inl ⟨h, rfl⟩)
      · exact hmove 'f' (Or.inr (Or.inl ⟨h, rfl⟩))
      · exact hmove 's' (Or.inr (Or.inr (Or.inl ⟨h, rfl⟩)))
      · exact hmove 'l' (Or.inr (Or.inr (Or.inr (Or.inl ⟨h, rfl⟩))))
      · exact hmove 'r' (Or.inr (Or.inr (Or.inr (Or.inr ⟨h, rfl⟩))))
      · subst h
        refine ⟨_, _, _, output_cmd_auto wr s id c value hc hfd0,
          server_set_same hc { c with conf := { c.conf with aflag := lnot c.conf.aflag } },
          ⟨fun _ => ⟨rfl, rfl⟩, fun h => absurd rfl h, rfl, rfl, rfl, rfl, rfl, rfl, rfl, rfl, rfl⟩,
          fun j hj => server_set_other h0 _ j hj, ?_⟩
        simp
      · subst h
        refine ⟨_, _, _, output_cmd_continue wr s id c value hc hfd0,
          server_set_same hc { c with conf := { c.conf with cflag := lnot c.conf.cflag } },
          ⟨fun h => absurd rfl h, fun _ => ⟨rfl, rfl⟩, rfl, rfl, rfl, rfl, rfl, rfl, rfl, rfl, rfl⟩,
          fun j hj => server_set_other h0 _ j hj, ?_⟩
        simp
  · exact hsame 0 (unknown_group_noop wr s id c cmd group value hc hfd0 hg)

theorem output_cmd_frame_witness :
    ∃ s1 rc c1, output_cmd 1 (world0 5) 0 6 1001 0 = some (s1, rc) ∧
      s1.server 0 = some c1 ∧
      frame_of ((1001 : Nat) = 1001 ∧ (6 : Nat) = 6) ((1001 : Nat) = 1001 ∧ (6 : Nat) = 7)
        (ctx0 5) c1 ∧
      (∀ j : Int, j ≠ 0 → s1.server j = (world0 5).server j) ∧
      s1.servers.length = (world0 5).servers.length :=
  output_cmd_frame 1 (world0 5) 0 (ctx0 5) 6 1001 0 (by decide)

/-! ## output_run, output_stop -/

theorem output_run_eq (tid : Nat) (s : World) (id : Int) (c : context)
    (hc : s.server id = some c) :
    output_run tid s id =
      some ({ s with
              servers := s.servers.set id.toNat { c with threadID := tid }
              threads := s.threads ++ [thread_call.create id tid, thread_call.detach tid] },
            0) := by
  simp [output_run, hc, World.set_server]

theorem output_stop_eq (s : World) (id : Int) (c : context) (hc : s.server id = some c) :
    output_stop s id =
      some ({ s with threads := s.threads ++ [thread_call.cancel c.threadID] }, 0) := by
  simp [output_stop, hc]

/-- C9. For an instance `id` inside the table, `output_run(id)` followed by
`output_stop(id)` both return 0; afterwards the entry of `id` is the entry from
before with only the thread handle replaced (same id, pglobal, port, hostname,
credentials, www_folder, nocommands, fd, aflag, cflag), no other entry has
changed, and no write was made. -/
theorem output_run_stop_frame (tid : Nat) (s : World) (id : Int) (c : context)
    (hc : s.server id = some c) :
    ∃ s1 s2, output_run tid s id = some (s1, 0) ∧ output_stop s1 id = some (s2, 0) ∧
      s2.server id = some { c with threadID := tid } ∧
      (∀ j : Int, j ≠ id → s2.server j = s.server j) ∧
      s2.servers.length = s.servers.length ∧
      s2.writes = s.writes ∧ s2.out_name = s.out_name ∧
      s2.threads = s.threads ++
        [thread_call.create id tid, thread_call.detach tid, thread_call.cancel tid] := by
  have h0 : 0 ≤ id := (server_eq_some hc).1
  have hs := server_set_same hc { c with threadID := tid }
  have hs1 : ({ s with
      servers := s.servers.set id.toNat { c with threadID := tid }
      threads := s.threads ++ [thread_call.create id tid, thread_call.detach tid] } :
        World).server id = some { c with threadID := tid } := hs
  refine ⟨_, _, output_run_eq tid s id c hc, output_stop_eq _ id _ hs1, hs,
    fun j hj => server_set_other h0 _ j hj, ?_, rfl, rfl, ?_⟩
  · simp
  · simp

theorem output_run_stop_frame_witness :
    output_init lc0 opts_pipe (World.start 4) param0 0 = some (world0 5, 0) ∧
    ∃ s1 s2, output_run 77 (world0 5) 0 = some (s1, 0) ∧ output_stop s1 0 = some (s2, 0) ∧
      s2.server 0 = some { ctx0 5 with threadID := 77 } ∧
      (∀ j : Int, j ≠ 0 → s2.server j = (world0 5).server j) ∧
      s2.servers.length = (world0 5).servers.length ∧
      s2.writes = (world0 5).writes ∧ s2.out_name = (world0 5).out_name ∧
      s2.threads = (world0 5).threads ++
        [thread_call.create 0 77, thread_call.detach 77, thread_call.cancel 77] :=
  ⟨by decide, output_run_stop_frame 77 (world0 5) 0 (ctx0 5) (by decide)⟩

/-! ## output_init -/

/-- The entry `output_init` stores when it returns 0: the option loop ended
normally with locals `l`, the slot `param->id` lies inside the table, and the
slot now holds the parsed values, both flags 0 and `fd` equal to -1 or, with a
pipe option, to the result of `open`. -/
theorem output_init_entry {lc : Libc} {opts : List getopt_result} {s s1 : World}
    {param : output_parameter} {id : Int}
    (h : output_init lc opts s param id = some (s1, 0)) :
    ∃ l c0, parse_options lc (init_defaults lc) opts = parse_outcome.parsed l ∧
      s.server param.id = some c0 ∧
      s1.server param.id = some
        { id := param.id, pglobal := param.global, threadID := c0.threadID,
          conf := { port := l.port, hostname := l.hostname, credentials := l.credentials,
                    www_folder := l.www_folder, nocommands := l.nocommands,
                    fd := (match l.named_pipe with
                      | none => -1
                      | some path => lc.open_fifo path),
                    aflag := 0, cflag := 0 } } := by
  unfold output_init at h
  cases hp : parse_options lc (init_defaults lc) opts with
  | help => rw [hp] at h; simp at h
  | undefined => rw [hp] at h; simp at h
  | parsed l =>
    rw [hp] at h
    cases hs : s.server param.id with
    | none => rw [hs] at h; simp at h
    | some c0 =>
      rw [hs] at h
      refine ⟨l, c0, rfl, rfl, ?_⟩
      simp only [Option.some.injEq, Prod.mk.injEq, and_true] at h
      subst h
      cases hn : l.named_pipe with
      | none => exact server_set_same hs _
      | some path => exact server_set_same hs _

/-! ## Consecutive toggle commands -/

theorem lnot_lnot_lnot (b : Int) : lnot (lnot (lnot b)) = lnot b := by
  unfold lnot
  by_cases h : b = 0 <;> simp [h]

theorem toggle_results_eq (b : Int) (n : Nat) :
    toggle_results b n =
      (List.range n).map (fun k => if k % 2 = 0 then lnot b else lnot (lnot b)) := by
  induction n generalizing b with
  | zero => rfl
  | succ n ih =>
    rw [toggle_results, ih, List.range_succ_eq_map, List.map_cons, List.map_map]
    congr 1
    apply List.map_congr_left
    intro k _
    have h2 : k % 2 = 0 ∨ k % 2 = 1 := by omega
    rcases h2 with h | h
    · have h3 : (k + 1) % 2 = 1 := by omega
      simp [h, h3]
    · have h3 : (k + 1) % 2 = 0 := by omega
      simp [h, h3, lnot_lnot_lnot]

theorem output_cmd_seq_auto (value : Int) (id : Int) (wrs : List Int) :
    ∀ (s : World) (c : context), s.server id = some c → 0 ≤ c.conf.fd →
      (output_cmd_seq s id 6 1001 value wrs).map Prod.snd =
        some (toggle_results c.conf.aflag wrs.length) := by
  induction wrs with
  | nil => intro s c _ _; rfl
  | cons wr wrs ih =>
    intro s c hc hfd
    have hs := server_set_same hc { c with conf := { c.conf with aflag := lnot c.conf.aflag } }
    have hstep := output_cmd_auto wr s id c value hc hfd
    have hrec := ih _ { c with conf := { c.conf with aflag := lnot c.conf.aflag } }
      (show World.server
        { s with
          servers := s.servers.set id.toNat
            { c with conf := { c.conf with aflag := lnot c.conf.aflag } }
          writes := s.writes ++ [{ fd := c.conf.fd, buf := [code 'z'], ret := wr }] } id = _
        from hs) hfd
    rw [output_cmd_seq, hstep]
    simp only [List.length_cons, toggle_results]
    revert hrec
    cases output_cmd_seq _ id 6 1001 value wrs with
    | none => intro hrec; simp at hrec
    | some r =>
      intro hrec
      simp only [Option.map_some', Option.some.injEq] at hrec
      simp [hrec]

theorem output_cmd_seq_continue (value : Int) (id : Int) (wrs : List Int) :
    ∀ (s : World) (c : context), s.server id = some c → 0 ≤ c.conf.fd →
      (output_cmd_seq s id 7 1001 value wrs).map Prod.snd =
        some (toggle_results c.conf.cflag wrs.length) := by
  induction wrs with
  | nil => intro s c _ _; rfl
  | cons wr wrs ih =>
    intro s c hc hfd
    have hs := server_set_same hc { c with conf := { c.conf with cflag := lnot c.conf.cflag } }
    have hstep := output_cmd_continue wr s id c value hc hfd
    have hrec := ih _ { c with conf := { c.conf with cflag := lnot c.conf.cflag } }
      (show World.server
        { s with
          servers := s.servers.set id.toNat
            { c with conf := { c.conf with cflag := lnot c.conf.cflag } }
          writes := s.writes ++ [{ fd := c.conf.fd, buf := [code 'x'], ret := wr }] } id = _
        from hs) hfd
    rw [output_cmd_seq, hstep]
    simp only [List.length_cons, toggle_results]
    revert hrec
    cases output_cmd_seq _ id 7 1001 value wrs with
    | none => intro hrec; simp at hrec
    | some r =>
      intro hrec
      simp only [Option.map_some', Option.some.injEq] at hrec
      simp [hrec]

/-- C4, counterexample. After `output_init` for instance 0 with an open channel,
two consecutive calls `output_cmd(0, 6, 1001, 0)` return 1 then 0, and so do
two consecutive calls with cmd 7: the first call (n = 1, odd) returns 1, not 0. -/
theorem first_toggle_returns_one :
    output_init lc0 opts_pipe (World.start 4) param0 0 = some (world0 5, 0) ∧
      (output_cmd_seq (world0 5) 0 6 1001 0 [1, 1]).map Prod.snd = some [1, 0] ∧
      (output_cmd_seq (world0 5) 0 7 1001 0 [1, 1]).map Prod.snd = some [1, 0] := by
  decide

/-- C4, amended. Starting from the state `output_init` leaves (return value 0,
both flags 0) with an available channel, consecutive calls of the same toggle
command (cmd 6 or cmd 7, group 1001) all return, and the return values are
1, 0, 1, 0, ...: the n-th consecutive call returns 1 for odd n and 0 for
even n, whatever the writes return. -/
theorem toggle_sequence_after_init (lc : Libc) (opts : List getopt_result) (s s1 : World)
    (param : output_parameter) (id : Int) (c : context) (cmd : Nat) (value : Int)
    (wrs : List Int) (hinit : output_init lc opts s param id = some (s1, 0))
    (hc : s1.server param.id = some c) (hfd : 0 ≤ c.conf.fd) (hcmd : cmd = 6 ∨ cmd = 7) :
    (output_cmd_seq s1 param.id cmd 1001 value wrs).map Prod.snd =
      some ((List.range wrs.length).map (fun k => if (k + 1) % 2 = 1 then 1 else 0)) := by
  obtain ⟨l, c0, _, _, hentry⟩ := output_init_entry hinit
  rw [hc] at hentry
  have hce := Option.some.inj hentry
  have ha : c.conf.aflag = 0 := by rw [hce]
  have hcf : c.conf.cflag = 0 := by rw [hce]
  have hfun : (fun k : Nat => if (k + 1) % 2 = 1 then (1 : Int) else 0) =
      (fun k : Nat => if k % 2 = 0 then lnot 0 else lnot (lnot 0)) := by
    funext k
    have h2 : k % 2 = 0 ∨ k % 2 = 1 := by omega
    rcases h2 with h | h
    · have h3 : (k + 1) % 2 = 1 := by omega
      simp [h, h3, lnot]
    · have h3 : (k + 1) % 2 = 0 := by omega
      simp [h, h3, lnot]
  rw [hfun, ← toggle_results_eq]
  rcases hcmd with h | h
  · subst h
    rw [output_cmd_seq_auto value param.id wrs s1 c hc hfd, ha]
  · subst h
    rw [output_cmd_seq_continue value param.id wrs s1 c hc hfd, hcf]

theorem toggle_sequence_after_init_witness :
    (output_cmd_seq (world0 5) param0.id 6 1001 0 [1, -1, 0]).map Prod.snd =
      some ((List.range [(1 : Int), -1, 0].length).map
        (fun k => if (k + 1) % 2 = 1 then 1 else 0)) :=
  toggle_sequence_after_init lc0 opts_pipe (World.start 4) (world0 5) param0 0 (ctx0 5) 6 0
    [1, -1, 0] (by decide) (by decide) (by decide) (by decide)

/-! ## The content root -/

theorem www_folder_of_eq (a : CStr) (hne : a ≠ []) :
    www_folder_of a = some (if a.getLast? = some '/' then a else a ++ ['/']) := by
  unfold www_folder_of
  cases hl : a.getLast? with
  | none => exact absurd (List.getLast?_eq_none_iff.mp hl) hne
  | some last =>
    by_cases h : last = '/'
    · simp [h]
    · simp [h]

theorem parse_options_append (lc : Libc) (pre rest : List getopt_result) :
    ∀ l : init_locals, parse_options lc l (pre ++ rest) =
      match parse_options lc l pre with
      | parse_outcome.parsed l1 => parse_options lc l1 rest
      | o => o := by
  induction pre with
  | nil => intro l; rfl
  | cons o pre ih =>
    intro l
    cases o with
    | unrecognized => rfl
    | option i arg =>
      simp only [List.cons_append, parse_options]
      split_ifs
      · rfl
      · exact ih _
      · exact ih _
      · exact ih _
      · cases www_folder_of arg with
        | none => rfl
        | some w => exact ih _
      · exact ih _
      · exact ih _
      · exact ih _

theorem parse_options_keeps_www (lc : Libc) (post : List getopt_result)
    (hpost : ∀ i arg, getopt_result.option i arg ∈ post → i ≠ 8 ∧ i ≠ 9) :
    ∀ l l1 : init_locals, parse_options lc l post = parse_outcome.parsed l1 →
      l1.www_folder = l.www_folder := by
  induction post with
  | nil =>
    intro l l1 h
    simp only [parse_options, parse_outcome.parsed.injEq] at h
    rw [h]
  | cons o post ih =>
    have ih1 := ih (fun i arg hm => hpost i arg (List.mem_cons_of_mem _ hm))
    intro l l1 h
    cases o with
    | unrecognized => simp [parse_options] at h
    | option i arg =>
      have hi := hpost i arg (List.mem_cons_self _ _)
      have h89 : ¬ (i = 8 ∨ i = 9) := by omega
      simp only [parse_options, h89, if_false] at h
      split_ifs at h
      · exact (ih1 _ _ h).trans rfl
      · exact (ih1 _ _ h).trans rfl
      · exact (ih1 _ _ h).trans rfl
      · exact (ih1 _ _ h).trans rfl
      · exact (ih1 _ _ h).trans rfl
      · exact ih1 _ _ h

/-- C10, counterexample. With the option `-w a//`, `output_init` stores the
content root "a//", which ends in two '/' and differs from "a/", the argument
with its trailing '/' characters replaced by a single one. -/
theorem www_folder_keeps_double_slash :
    (output_init lc0 [getopt_result.option 8 ['a', '/', '/']] (World.start 4) param0 0).map
        (fun r => (r.1.server 0).map (fun c => c.conf.www_folder)) =
        some (some (some ['a', '/', '/'])) ∧
      one_trailing_slash ['a', '/', '/'] = ['a', '/'] := by
  decide

/-- C10, amended. For every non-empty argument `a` of the last -w / --www
option, when `output_init` returns 0 the stored content root ends with '/':
it is `a` itself when `a` already ends in '/' (every trailing '/' of `a` is
kept) and `a` followed by one '/' otherwise. -/
theorem www_folder_stored (lc : Libc) (pre post : List getopt_result) (i : Nat) (a : CStr)
    (s s1 : World) (param : output_parameter) (id : Int) (hi : i = 8 ∨ i = 9) (hne : a ≠ [])
    (hpost : ∀ j arg, getopt_result.option j arg ∈ post → j ≠ 8 ∧ j ≠ 9)
    (hinit : output_init lc (pre ++ getopt_result.option i a :: post) s param id = some (s1, 0)) :
    ∃ c w, s1.server param.id = some c ∧ c.conf.www_folder = some w ∧
      w = (if a.getLast? = some '/' then a else a ++ ['/']) ∧
      w.getLast? = some '/' := by
  obtain ⟨l, c0, hparse, _, hentry⟩ := output_init_entry hinit
  rw [parse_options_append] at hparse
  cases hpre : parse_options lc (init_defaults lc) pre with
  | help => rw [hpre] at hparse; simp at hparse
  | undefined => rw [hpre] at hparse; simp at hparse
  | parsed l0 =>
    rw [hpre] at hparse
    have h01 : ¬ (i = 0 ∨ i = 1) := by omega
    have h23 : ¬ (i = 2 ∨ i = 3) := by omega
    have h45 : ¬ (i = 4 ∨ i = 5) := by omega
    have h67 : ¬ (i = 6 ∨ i = 7) := by omega
    simp only [parse_options, h01, h23, h45, h67, hi, if_false, if_true,
      www_folder_of_eq a hne] at hparse
    have hw := parse_options_keeps_www lc post hpost _ _ hparse
    refine ⟨_, _, hentry, hw, rfl, ?_⟩
    by_cases hl : a.getLast? = some '/'
    · simp [hl]
    · simp [hl]

theorem www_folder_stored_witness :
    ∃ c w, (world0 5 |>.set_server 0
        { ctx0 5 with conf := { (ctx0 5).conf with www_folder := some ['w', '/'] } }).server
          param0.id = some c ∧
      c.conf.www_folder = some w ∧
      w = (if ['w'].getLast? = some '/' then ['w'] else ['w'] ++ ['/']) ∧
      w.getLast? = some '/' :=
  www_folder_stored lc0 [] opts_pipe 9 ['w'] (World.start 4)
    (world0 5 |>.set_server 0
      { ctx0 5 with conf := { (ctx0 5).conf with www_folder := some ['w', '/'] } })
    param0 0 (by decide) (by decide)
    (by
      intro j arg hm
      simp only [opts_pipe, List.mem_singleton, getopt_result.option.injEq] at hm
      omega)
    (by decide)

/-! ## Slots `output_init` never ran for -/

/-- Storing at `id` a context with the same `fd` keeps the `fd` of every slot. -/
theorem set_server_keeps_fd {s : World} {id : Int} {c0 c1 : context}
    (h0 : s.server id = some c0) (hfd : c1.conf.fd = c0.conf.fd) (j : Int) (c : context)
    (hj : s.server j = some c) :
    ∃ c2, (s.set_server id c1).server j = some c2 ∧ c2.conf.fd = c.conf.fd := by
  by_cases hji : j = id
  · subst hji
    rw [h0] at hj
    have hcc := Option.some.inj hj
    exact ⟨c1, server_set_same h0 c1, by rw [hfd, hcc]⟩
  · exact ⟨c, by rw [server_set_other (server_eq_some h0).1 c1 j hji]; exact hj, rfl⟩

/-- The inner switch either leaves the state alone or stores at `id` a context
with the same `fd`. -/
theorem cmd_switch_state (s : World) (id : Int) (c : context) (cmd : Nat) :
    (cmd_switch s id c cmd).2.1 = s ∨
      ∃ c1, c1.conf.fd = c.conf.fd ∧ (cmd_switch s id c cmd).2.1 = s.set_server id c1 := by
  rcases cmd with _ | _ | _ | _ | _ | _ | _ | _ | n
  · exact Or.inl rfl
  · exact Or.inl rfl
  · exact Or.inl rfl
  · exact Or.inl rfl
  · exact Or.inl rfl
  · exact Or.inl rfl
  · exact Or.inr ⟨{ c with conf := { c.conf with aflag := lnot c.conf.aflag } }, rfl, rfl⟩
  · exact Or.inr ⟨{ c with conf := { c.conf with cflag := lnot c.conf.cflag } }, rfl, rfl⟩
  · exact Or.inl rfl

/-- No call of `output_cmd` changes the `fd` of a slot. -/
theorem output_cmd_keeps_fd {wr : Int} {s s1 : World} {id : Int} {cmd group : Nat}
    {value rc : Int} (h : output_cmd wr s id cmd group value = some (s1, rc)) (j : Int)
    (c : context) (hj : s.server j = some c) :
    ∃ c2, s1.server j = some c2 ∧ c2.conf.fd = c.conf.fd := by
  unfold output_cmd at h
  cases h0 : s.server id with
  | none => rw [h0] at h; simp at h
  | some c0 =>
    rw [h0] at h
    simp only at h
    split_ifs at h with h1 h2 h3
    · simp only [Option.some.injEq, Prod.mk.injEq] at h
      rw [← h.1]
      exact ⟨c, hj, rfl⟩
    · simp only [Option.some.injEq, Prod.mk.injEq] at h
      rw [← h.1]
      rcases cmd_switch_state s id c0 cmd with hs | ⟨c1, hc1, hs⟩
      · rw [hs]
        exact ⟨c, hj, rfl⟩
      · rw [hs]
        exact set_server_keeps_fd h0 hc1 j c hj
    · simp only [Option.some.injEq, Prod.mk.injEq] at h
      rw [← h.1]
      rcases cmd_switch_state s id c0 cmd with hs | ⟨c1, hc1, hs⟩
      · rw [hs]
        exact ⟨c, hj, rfl⟩
      · rw [hs]
        exact set_server_keeps_fd h0 hc1 j c hj
    · simp only [Option.some.injEq, Prod.mk.injEq] at h
      rw [← h.1]
      exact ⟨c, hj, rfl⟩

/-- A call other than `output_init` for slot `j` keeps the `fd` of slot `j`. -/
theorem apply_keeps_fd {k : plugin_call} {s s1 : World} {rc : Int} {j : Int} {c : context}
    (h : k.apply s = some (s1, rc)) (hk : k.inits j = false) (hj : s.server j = some c) :
    ∃ c2, s1.server j = some c2 ∧ c2.conf.fd = c.conf.fd := by
  cases k with
  | call_init lc opts param id =>
    have hne : j ≠ param.id := by
      intro he
      simp [plugin_call.inits, he] at hk
    simp only [plugin_call.apply] at h
    unfold output_init at h
    cases hp : parse_options lc (init_defaults lc) opts with
    | undefined => rw [hp] at h; simp at h
    | help =>
      rw [hp] at h
      simp only [Option.some.injEq, Prod.mk.injEq] at h
      rw [← h.1]
      exact ⟨c, hj, rfl⟩
    | parsed l =>
      rw [hp] at h
      cases hs : s.server param.id with
      | none => rw [hs] at h; simp at h
      | some c0 =>
        rw [hs] at h
        simp only [Option.some.injEq, Prod.mk.injEq] at h
        rw [← h.1]
        refine ⟨c, ?_, rfl⟩
        exact (server_set_other (server_eq_some hs).1 _ j hne).trans hj
  | call_run tid id =>
    simp only [plugin_call.apply] at h
    cases hs : s.server id with
    | none => simp [output_run, hs] at h
    | some c0 =>
      rw [output_run_eq tid s id c0 hs] at h
      simp only [Option.some.injEq, Prod.mk.injEq] at h
      rw [← h.1]
      have hsame : ({ c0 with threadID := tid } : context).conf.fd = c0.conf.fd := rfl
      exact set_server_keeps_fd hs hsame j c hj
  | call_stop id =>
    simp only [plugin_call.apply] at h
    cases hs : s.server id with
    | none => simp [output_stop, hs] at h
    | some c0 =>
      rw [output_stop_eq s id c0 hs] at h
      simp only [Option.some.injEq, Prod.mk.injEq] at h
      rw [← h.1]
      exact ⟨c, hj, rfl⟩
  | call_cmd wr id cmd group value =>
    simp only [plugin_call.apply] at h
    exact output_cmd_keeps_fd h j c hj

/-- Calls among which none is `output_init` for slot `j` keep the `fd` of
slot `j`. -/
theorem run_calls_keeps_fd (j : Int) (ks : List plugin_call) :
    ∀ (s s1 : World) (c : context), run_calls s ks = some s1 →
      (∀ k ∈ ks, k.inits j = false) → s.server j = some c →
      ∃ c2, s1.server j = some c2 ∧ c2.conf.fd = c.conf.fd := by
  induction ks with
  | nil =>
    intro s s1 c h _ hj
    simp only [run_calls, Option.some.injEq] at h
    rw [← h]
    exact ⟨c, hj, rfl⟩
  | cons k ks ih =>
    intro s s1 c h hno hj
    simp only [run_calls] at h
    cases hk : k.apply s with
    | none => rw [hk] at h; simp at h
    | some r =>
      obtain ⟨s2, rc⟩ := r
      rw [hk] at h
      simp only at h
      obtain ⟨c2, hc2, hfd2⟩ := apply_keeps_fd hk (hno k (List.mem_cons_self _ _)) hj
      obtain ⟨c3, hc3, hfd3⟩ :=
        ih s2 s1 c2 h (fun k1 hm => hno k1 (List.mem_cons_of_mem _ hm)) hc2
      exact ⟨c3, hc3, hfd3.trans hfd2⟩

/-- Every slot of the table is all zero at program start. -/
theorem start_server (cap : Nat) (id : Int) (h0 : 0 ≤ id) (h1 : id < cap) :
    (World.start cap).server id = some zero_context := by
  have hlt : id.toNat < cap := by omega
  simp [World.server, World.start, h0, List.getElem?_replicate, hlt]

/-- C7, amended. Let `id` lie inside the table and let the state be reached from
program start by calls among which none is `output_init` for slot `id`. Then
the slot still has `conf.fd = 0` and `output_cmd(id, cmd, group, value)` takes
no error path: it returns 0 or 1, treating the slot as an instance whose
channel is descriptor `conf.fd = 0`. For a group other than 1001, and for
group 1001 with cmd below 1 or above 7, it returns 0 and leaves the state as it
was; for group 1001 and cmd 1..5 it makes one one-byte write of the table
symbol on that descriptor and returns 0; for cmd 6 (cmd 7) it replaces aflag
(cflag) of the slot by its negation, makes one one-byte write of 'z' ('x') on
that descriptor and returns the new flag. -/
theorem output_cmd_never_initialised (cap : Nat) (ks : List plugin_call) (s : World)
    (id : Int) (wr : Int) (cmd group : Nat) (value : Int) (hid : 0 ≤ id ∧ id < cap)
    (hrun : run_calls (World.start cap) ks = some s)
    (hno : ∀ k ∈ ks, k.inits id = false) :
    ∃ c, s.server id = some c ∧ c.conf.fd = 0 ∧
      (∃ s1 rc, output_cmd wr s id cmd group value = some (s1, rc) ∧ (rc = 0 ∨ rc = 1)) ∧
      (group ≠ 1001 → output_cmd wr s id cmd group value = some (s, 0)) ∧
      (cmd < 1 ∨ 7 < cmd → output_cmd wr s id cmd 1001 value = some (s, 0)) ∧
      (∀ sym : Char,
        (cmd = 1 ∧ sym = 'b') ∨ (cmd = 2 ∧ sym = 'f') ∨ (cmd = 3 ∧ sym = 's') ∨
          (cmd = 4 ∧ sym = 'l') ∨ (cmd = 5 ∧ sym = 'r') →
        output_cmd wr s id cmd 1001 value =
          some ({ s with writes := s.writes ++ [{ fd := c.conf.fd, buf := [code sym], ret := wr }] },
                0)) ∧
      output_cmd wr s id 6 1001 value =
        some ({ s with
                servers := s.servers.set id.toNat
                  { c with conf := { c.conf with aflag := lnot c.conf.aflag } }
                writes := s.writes ++ [{ fd := c.conf.fd, buf := [code 'z'], ret := wr }] },
              lnot c.conf.aflag) ∧
      output_cmd wr s id 7 1001 value =
        some ({ s with
                servers := s.servers.set id.toNat
                  { c with conf := { c.conf with cflag := lnot c.conf.cflag } }
                writes := s.writes ++ [{ fd := c.conf.fd, buf := [code 'x'], ret := wr }] },
              lnot c.conf.cflag) := by
  obtain ⟨c, hc, hfdc⟩ := run_calls_keeps_fd id ks (World.start cap) s zero_context hrun hno
    (start_server cap id hid.1 hid.2)
  have hfd0 : c.conf.fd = 0 := hfdc.trans rfl
  have hfd : 0 ≤ c.conf.fd := by omega
  have hmove := fun sym h => output_cmd_move wr s id c cmd value sym hc hfd h
  have hother := fun h => output_cmd_other wr s id c cmd value hc hfd h
  have hgroup := fun hg => unknown_group_noop wr s id c cmd group value hc hfd hg
  have hauto := output_cmd_auto wr s id c value hc hfd
  have hcont := output_cmd_continue wr s id c value hc hfd
  refine ⟨c, hc, hfd0, ?_, hgroup, hother, hmove, hauto, hcont⟩
  by_cases hg : group = 1001
  · subst hg
    by_cases hout : cmd < 1 ∨ 7 < cmd
    · exact ⟨_, _, hother hout, Or.inl rfl⟩
    · have hcases : cmd = 1 ∨ cmd = 2 ∨ cmd = 3 ∨ cmd = 4 ∨ cmd = 5 ∨ cmd = 6 ∨ cmd = 7 := by
        omega
      rcases hcases with h | h | h | h | h | h | h
      · exact ⟨_, _, hmove 'b' (Or.inl ⟨h, rfl⟩), Or.inl rfl⟩
      · exact ⟨_, _, hmove 'f' (Or.inr (Or.inl ⟨h, rfl⟩)), Or.inl rfl⟩
      · exact ⟨_, _, hmove 's' (Or.inr (Or.inr (Or.inl ⟨h, rfl⟩))), Or.inl rfl⟩
      · exact ⟨_, _, hmove 'l' (Or.inr (Or.inr (Or.inr (Or.inl ⟨h, rfl⟩)))), Or.inl rfl⟩
      · exact ⟨_, _, hmove 'r' (Or.inr (Or.inr (Or.inr (Or.inr ⟨h, rfl⟩)))), Or.inl rfl⟩
      · subst h
        exact ⟨_, _, hauto, lnot_zero_or_one _⟩
      · subst h
        exact ⟨_, _, hcont, lnot_zero_or_one _⟩
  · exact ⟨_, _, hgroup hg, Or.inl rfl⟩

theorem output_cmd_never_initialised_witness :
    ∃ c, world1.server 2 = some c ∧ c.conf.fd = 0 ∧
      (∃ s1 rc, output_cmd (-1) world1 2 6 1001 0 = some (s1, rc) ∧ (rc = 0 ∨ rc = 1)) ∧
      ((1001 : Nat) ≠ 1001 → output_cmd (-1) world1 2 6 1001 0 = some (world1, 0)) ∧
      ((6 : Nat) < 1 ∨ 7 < (6 : Nat) → output_cmd (-1) world1 2 6 1001 0 = some (world1, 0)) ∧
      (∀ sym : Char,
        ((6 : Nat) = 1 ∧ sym = 'b') ∨ ((6 : Nat) = 2 ∧ sym = 'f') ∨ ((6 : Nat) = 3 ∧ sym = 's') ∨
          ((6 : Nat) = 4 ∧ sym = 'l') ∨ ((6 : Nat) = 5 ∧ sym = 'r') →
        output_cmd (-1) world1 2 6 1001 0 =
          some ({ world1 with
                  writes := world1.writes ++ [{ fd := c.conf.fd, buf := [code sym], ret := -1 }] },
                0)) ∧
      output_cmd (-1) world1 2 6 1001 0 =
        some ({ world1 with
                servers := world1.servers.set (2 : Int).toNat
                  { c with conf := { c.conf with aflag := lnot c.conf.aflag } }
                writes := world1.writes ++ [{ fd := c.conf.fd, buf := [code 'z'], ret := -1 }] },
              lnot c.conf.aflag) ∧
      output_cmd (-1) world1 2 7 1001 0 =
        some ({ world1 with
                servers := world1.servers.set (2 : Int).toNat
                  { c with conf := { c.conf with cflag := lnot c.conf.cflag } }
                writes := world1.writes ++ [{ fd := c.conf.fd, buf := [code 'x'], ret := -1 }] },
              lnot c.conf.cflag) :=
  output_cmd_never_initialised 4 calls0 world1 2 (-1) 6 1001 0 (by decide) (by decide)
    (by decide)

end OutputHttp
